import Mathlib

/-!
Verification of the Acquisition & Idempotency Engine of the GunCAD index
downloader (`Guncad_index_downloader_v15.py`).

The development is a shallow embedding of the program's core:

* filesystem paths are lists of components (`FsPath`); the filesystem is an
  association list from paths to file metadata (`FileSys`);
* `os.path.relpath(f, out).startswith('..')` for absolute normalized paths is
  embedded as "out is not a component-prefix of f" (the `ValueError` branch
  for paths on different drives behaves, at every use site in the source,
  exactly like the `startswith('..')` branch, so both are folded into the
  not-a-prefix case);
* the MD5 digest used by `DownloadTracker.get_entry_id` is kept abstract: the
  definitions take an arbitrary digest function `md5 : String → String` and
  the theorems are proved for every such function;
* the daemon (`lbrynet`) is embedded as a script of responses: a list of
  answers to `get` calls and a list of poll traces, one per entry into the
  `wait_for_download` loop; real time is counted in abstract units advanced
  by 2 per poll iteration, mirroring `time.sleep(2)`;
* wall-clock timestamp fields (`downloaded_at`, `failed_at`,
  `Date Downloaded`) are omitted from records, being pure I/O noise.
-/

namespace Guncad

/-- A filesystem path: absolute, normalized list of components. -/
abbrev FsPath := List String

/-- Result of `zipfile.ZipFile(...).testzip()` together with the failure
modes of `verify_zip`. -/
inductive ZipTest where
  | valid (fileCount : Nat)
  | corruptMember (name : String)
  | badZip
  | readError (msg : String)
  deriving Repr, DecidableEq

/-- Metadata of a file on disk: its size, whether its first two magic bytes
are the characters PK, and what scanning it as a zip archive yields. -/
structure FileMeta where
  size : Nat
  isPK : Bool
  zipTest : ZipTest
  deriving Repr, DecidableEq

/-- The filesystem: an association list from paths to metadata. -/
abbrev FileSys := List (FsPath × FileMeta)

/-- `os.path.getsize`-style lookup of a path's metadata. -/
def fsLookup (fs : FileSys) (p : FsPath) : Option FileMeta :=
  match fs.find? (fun e => e.fst == p) with
  | some e => some e.snd
  | none => none

/-- `os.path.exists`. -/
def pathExists (fs : FileSys) (p : FsPath) : Bool :=
  (fsLookup fs p).isSome

/-- Whether an absolute path lies inside the managed output directory:
the embedding of `not os.path.relpath(p, outputDir).startswith('..')`. -/
def insideOutputDir (outputDir p : FsPath) : Bool :=
  outputDir.isPrefixOf p

/-- `os.path.basename` for a component path. -/
def basename (p : FsPath) : String :=
  p.getLastD ""

/-- `os.path.dirname` for a component path. -/
def dirname (p : FsPath) : FsPath :=
  p.dropLast

/-! ### String primitives

The embedding implements the handful of string operations the source uses
(`str.lower`, `str.upper`, `str.split`, per-character substitution) over
`List Char`, so that every definition evaluates by kernel reduction.  Case
mapping is ASCII-only, which is what every use site feeds it. -/

/-- ASCII `str.lower` on one character. -/
def lowerChar (c : Char) : Char :=
  if 65 ≤ c.toNat ∧ c.toNat ≤ 90 then Char.ofNat (c.toNat + 32) else c

/-- ASCII `str.upper` on one character. -/
def upperChar (c : Char) : Char :=
  if 97 ≤ c.toNat ∧ c.toNat ≤ 122 then Char.ofNat (c.toNat - 32) else c

/-- ASCII `str.lower`. -/
def lowerStr (s : String) : String :=
  String.mk (s.toList.map lowerChar)

/-- ASCII `str.upper`. -/
def upperStr (s : String) : String :=
  String.mk (s.toList.map upperChar)

/-- Per-character substitution (the effect of `re.sub` with a character
class, or of chained `str.replace` with single-character arguments). -/
def strMap (f : Char → Char) (s : String) : String :=
  String.mk (s.toList.map f)

/-- `str.split(sep)` on character lists, for a nonempty separator starting
with `s0` and continuing with `stail`.  Structural recursion on a fuel
argument (one unit per inspected character, so the input length is always
enough fuel; the zero-fuel fallback is unreachable then). -/
def splitOnGo (s0 : Char) (stail : List Char) : Nat → List Char → List Char → List (List Char)
  | _, [], acc => [acc.reverse]
  | 0, rest, acc => [acc.reverse ++ rest]
  | fuel + 1, c :: rest, acc =>
    if c = s0 ∧ stail.isPrefixOf rest then
      acc.reverse :: splitOnGo s0 stail fuel (rest.drop stail.length) []
    else
      splitOnGo s0 stail fuel rest (c :: acc)

/-- `str.split(sep)` for a nonempty literal separator. -/
def strSplitOn (s sep : String) : List String :=
  match sep.toList with
  | [] => [s]
  | s0 :: stail => (splitOnGo s0 stail s.toList.length s.toList []).map String.mk

/-- One entry of `download_history.json`.  Success entries
(`mark_downloaded`) carry `filepath`/`verified`/`file_size` and no `status`
field; failure entries (`mark_failed`) carry `status = some "failed"`,
`lbry_url` and `reason` and no file path.  Absent dict fields are `none`
resp. the empty value, matching `entry.get(...)` defaults. -/
structure HistEntry where
  title : String
  detail_url : String
  filepath : Option FsPath
  status : Option String
  lbry_url : String
  reason : String
  tags : List String
  file_exists : Bool
  verified : Bool
  file_size : Nat
  category : Option String
  gun_model : Option String
  caliber : Option String
  deriving Repr, DecidableEq

/-- Python-dict lookup in an association list (first binding wins). -/
def histLookup (history : List (String × HistEntry)) (k : String) : Option HistEntry :=
  match history.find? (fun e => e.fst == k) with
  | some e => some e.snd
  | none => none

/-- One row of the Excel master index (`IndexedRecord`).  Only the columns
the engine reads are modelled; `location = none` models an empty or missing
`Location` cell, and `fileSizeMB = none` models a `File Size (MB)` cell on
which `float(...)` raises (a missing cell defaults to the string `'0'`,
i.e. `some 0`). -/
structure IndexRecord where
  fileName : String
  location : Option FsPath
  lbryUrl : String
  detailUrl : String
  fileSizeMB : Option ℚ
  tags : String
  category : String
  deriving Repr, DecidableEq

/-- `DownloadTracker.get_entry_id`: the ledger key is the digest of the
detail URL. -/
def get_entry_id (md5 : String → String) (detail_url : String) : String :=
  md5 detail_url

/-- Decision taken by `is_downloaded` on the first Excel row whose
`LBRY URL` matches: inside-tree existing file means downloaded; a missing
file, an empty location, or a file outside the output directory all force a
re-download. -/
def excelDecision (fs : FileSys) (outputDir : FsPath) (entry : IndexRecord) : Bool :=
  match entry.location with
  | some filepath =>
    if pathExists fs filepath then
      if !insideOutputDir outputDir filepath then false else true
    else false
  | none => false

/-- The Excel-index phase of `is_downloaded` (lines 89-110): skipped when
the index is empty or no locator is given; otherwise the loop returns on the
first row with matching `LBRY URL`, and falls through (`none`) when no row
matches. -/
def excelPhase (fs : FileSys) (outputDir : FsPath) (excel_index : List IndexRecord)
    (lbry_url : String) : Option Bool :=
  if excel_index.isEmpty || lbry_url == "" then none
  else
    match excel_index.find? (fun e => e.lbryUrl == lbry_url) with
    | some entry => some (excelDecision fs outputDir entry)
    | none => none

/-- The history-ledger phase of `is_downloaded` (lines 112-134). -/
def ledgerPhase (fs : FileSys) (outputDir : FsPath) (history : List (String × HistEntry))
    (entry_id : String) : Bool :=
  match histLookup history entry_id with
  | none => false
  | some entry =>
    if entry.status == some "failed" then false
    else
      match entry.filepath with
      | some stored_filepath =>
        if pathExists fs stored_filepath && insideOutputDir outputDir stored_filepath then
          true
        else false
      | none => false

/-- `DownloadTracker.is_downloaded`: Excel index (by LBRY URL) first, then
the persisted history keyed by the hashed detail URL.  The `expected_size`
parameter is part of the source signature but unused by the source body. -/
def is_downloaded (md5 : String → String) (fs : FileSys) (outputDir : FsPath)
    (excel_index : List IndexRecord) (history : List (String × HistEntry))
    (detail_url lbry_url : String) (expected_size : Nat) : Bool :=
  match excelPhase fs outputDir excel_index lbry_url with
  | some b => b
  | none => ledgerPhase fs outputDir history (get_entry_id md5 detail_url)

/-! ## Content verifier (`FileVerifier`) -/

/-- Extension part of `os.path.splitext`, applied to a basename: everything
from the last dot on, unless every character before that dot is itself a
dot (so `.bashrc` has no extension). -/
def takeExtRev : List Char → Option (List Char × List Char)
  | [] => none
  | c :: rest =>
    if c = '.' then some ([], rest)
    else
      match takeExtRev rest with
      | some (e, r) => some (c :: e, r)
      | none => none

/-- `os.path.splitext(name)[1]` for a basename `name`. -/
def extOf (name : String) : String :=
  match takeExtRev name.toList.reverse with
  | none => ""
  | some (extRev, preRev) =>
    if preRev.all (fun c => c = '.') then ""
    else String.mk ('.' :: extRev.reverse)

/-- `FileVerifier.verify_zip`: scan the archive's internal index.  The
interesting outcome is derived from the file's `ZipTest` attribute. -/
def verify_zip (meta : FileMeta) : Bool × String :=
  match meta.zipTest with
  | ZipTest.valid n => (true, "Valid zip with " ++ toString n ++ " files")
  | ZipTest.corruptMember m => (false, "Corrupt file: " ++ m)
  | ZipTest.badZip => (false, "Not a valid zip")
  | ZipTest.readError e => (false, "Error: " ++ e)

/-- `FileVerifier.is_zip_file`: magic-byte check. -/
def is_zip_file (meta : FileMeta) : Bool :=
  meta.isPK

/-- The recognized non-archive content types (`cad_formats`). -/
def cad_formats : List String :=
  [".stl", ".step", ".stp", ".3mf", ".obj", ".f3d",
   ".blend", ".scad", ".dxf", ".dwg", ".iges", ".igs",
   ".pdf", ".txt", ".md", ".gcode", ".rar", ".7z"]

/-- The degraded-but-accepted message for archives that fail the zip scan.
The source interpolates the file size in MB; the size text is elided. -/
def degradedZipMsg : String :=
  "File downloaded - may not be standard zip"

/-- `FileVerifier.verify_file`. -/
def verify_file (fs : FileSys) (filepath : FsPath) : Bool × String :=
  match fsLookup fs filepath with
  | none => (false, "File not found")
  | some meta =>
    if meta.size = 0 then (false, "File is empty")
    else
      let ext := lowerStr (extOf (basename filepath))
      if ext == ".zip" || is_zip_file meta then
        let r := verify_zip meta
        if r.fst then (true, r.snd)
        else (true, degradedZipMsg)
      else if cad_formats.contains ext then
        (true, "Valid " ++ upperStr ext ++ " file")
      else
        (true, "File downloaded")

/-! ## Ledger mutation (`DownloadTracker.mark_downloaded` / `mark_failed`) -/

/-- Python dict assignment `d[k] = v` on an association list: the first
binding for `k` is replaced in place, otherwise the binding is appended. -/
def upsert (k : String) (v : HistEntry) : List (String × HistEntry) → List (String × HistEntry)
  | [] => [(k, v)]
  | (k2, v2) :: rest =>
    if k2 == k then (k, v) :: rest else (k2, v2) :: upsert k v rest

/-- The in-memory filesystem cache: bare filename to the `(path, size)`
records found for it, in scan order. -/
abbrev FsCache := List (String × List (FsPath × Nat))

/-- Appending one file to the filesystem cache, as done at the end of
`mark_downloaded`: the pair is appended to the filename's bucket, a new
bucket being created at the end for an unseen filename. -/
def cacheAppend : FsCache → String → FsPath → Nat → FsCache
  | [], name, p, sz => [(name, [(p, sz)])]
  | (n, l) :: rest, name, p, sz =>
    if n == name then (n, l ++ [(p, sz)]) :: rest
    else (n, l) :: cacheAppend rest name p sz

/-- The mutable state of a `DownloadTracker`: the in-memory history, the
persisted copy written by `save_history`, and the lazily built filesystem
cache (`none` until `build_filesystem_cache` runs). -/
structure TrackerState where
  history : List (String × HistEntry)
  historyDisk : List (String × HistEntry)
  filesystem_cache : Option FsCache
  deriving Repr, DecidableEq

/-- `DownloadTracker.mark_downloaded`: build the success entry, upsert it
under the hashed detail URL, persist synchronously, and append the new file
to the filesystem cache if the cache has been built. -/
def mark_downloaded (md5 : String → String) (fs : FileSys) (st : TrackerState)
    (detail_url title : String) (filepath : FsPath) (tags : List String)
    (verified : Bool) (file_size : Nat)
    (category gun_model caliber : Option String) : TrackerState :=
  let entry_id := get_entry_id md5 detail_url
  let e : HistEntry :=
    { title := title, detail_url := detail_url, filepath := some filepath,
      status := none, lbry_url := "", reason := "", tags := tags,
      file_exists := pathExists fs filepath, verified := verified,
      file_size := file_size, category := category, gun_model := gun_model,
      caliber := caliber }
  let history := upsert entry_id e st.history
  let cache :=
    match st.filesystem_cache with
    | none => none
    | some c => some (cacheAppend c (basename filepath) filepath file_size)
  { history := history, historyDisk := history, filesystem_cache := cache }

/-- `DownloadTracker.mark_failed`: build the failure entry, upsert it under
the hashed detail URL and persist synchronously. -/
def mark_failed (md5 : String → String) (st : TrackerState)
    (detail_url title reason lbry_url : String) : TrackerState :=
  let entry_id := get_entry_id md5 detail_url
  let e : HistEntry :=
    { title := title, detail_url := detail_url, filepath := none,
      status := some "failed", lbry_url := lbry_url, reason := reason,
      tags := [], file_exists := false, verified := false, file_size := 0,
      category := none, gun_model := none, caliber := none }
  let history := upsert entry_id e st.history
  { st with history := history, historyDisk := history }

/-- A terminal transition of the acquisition machine recorded in the
ledger: the arguments of one `mark_downloaded` or `mark_failed` call. -/
inductive TrackerOp where
  | markDownloaded (detail_url title : String) (filepath : FsPath)
      (tags : List String) (verified : Bool) (file_size : Nat)
      (category gun_model caliber : Option String)
  | markFailed (detail_url title reason lbry_url : String)
  deriving Repr, DecidableEq

/-- The detail URL an operation records. -/
def TrackerOp.detailUrl : TrackerOp → String
  | TrackerOp.markDownloaded d _ _ _ _ _ _ _ _ => d
  | TrackerOp.markFailed d _ _ _ => d

/-- Apply one recorded terminal transition. -/
def applyOp (md5 : String → String) (fs : FileSys) (st : TrackerState) :
    TrackerOp → TrackerState
  | TrackerOp.markDownloaded d t fp tags v sz c g cal =>
    mark_downloaded md5 fs st d t fp tags v sz c g cal
  | TrackerOp.markFailed d t r l => mark_failed md5 st d t r l

/-- Apply a sequence of terminal transitions. -/
def runOps (md5 : String → String) (fs : FileSys) (st : TrackerState)
    (ops : List TrackerOp) : TrackerState :=
  ops.foldl (applyOp md5 fs) st

/-- The ledger key invariant: keys are pairwise distinct and every entry is
stored under the digest of its own detail URL. -/
def LedgerInv (md5 : String → String) (st : TrackerState) : Prop :=
  (st.history.map Prod.fst).Nodup ∧
    ∀ kv ∈ st.history, kv.fst = md5 kv.snd.detail_url

/-! ## Daemon client (`LBRYDaemonClient`)

Time is counted in abstract units; every poll-loop iteration ends in
`time.sleep(2)`, so the clock advances by 2 per consumed response.  The
daemon is a script: a list of `file_list` responses for the poll loop and a
list of `get` responses for the attempt loop. -/

/-- One item of a `file_list` response.  `download_path = none` models an
absent or empty `download_path` field (both falsy), `written_total = none`
models a response without the `written_bytes`/`total_bytes` pair. -/
structure FileItem where
  status : String
  download_path : Option FsPath
  written_total : Option (Nat × Nat)
  deriving Repr, DecidableEq

/-- One answer to a `file_list` call: either no (or falsy) response, or a
response carrying a list of items. -/
inductive PollResponse where
  | noResp
  | resp (items : List FileItem)
  deriving Repr, DecidableEq

/-- The loop state of `wait_for_download`: elapsed time units since the
loop started, the last observed `written_bytes`, and the time at which the
current no-progress streak began (if one is running). -/
structure WaitState where
  now : Nat
  last_written_bytes : Nat
  stall_start_time : Option Nat
  deriving Repr, DecidableEq

/-- How the poll loop ends.  `ranOut` is an artifact of the finite response
script: the real loop would still be polling. -/
inductive WaitResult where
  | gotPath (p : FsPath)
  | stalledFail
  | stoppedFail
  | noItemsFail
  | noStatusFail
  | ranOut (st : WaitState)
  deriving Repr, DecidableEq

/-- The progress/stall bookkeeping block of one poll iteration (possibly
returning from inside the stall branch).  `Sum.inl` is a `return`,
`Sum.inr` the state carried on. -/
def pollWritten (fs : FileSys) (st : WaitState) (fi : FileItem) : WaitResult ⊕ WaitState :=
  match fi.written_total with
  | none => Sum.inr st
  | some (written, _total) =>
    if written > st.last_written_bytes then
      Sum.inr { st with stall_start_time := none, last_written_bytes := written }
    else
      match st.stall_start_time with
      | none => Sum.inr { st with stall_start_time := some st.now }
      | some s0 =>
        if st.now - s0 > 30 then
          Sum.inl
            (match fi.download_path with
             | some p =>
               match fsLookup fs p with
               | some meta =>
                 if meta.size > 0 then WaitResult.gotPath p else WaitResult.stalledFail
               | none => WaitResult.stalledFail
             | none => WaitResult.stalledFail)
        else Sum.inr st

/-- The `completed`/`finished`/`stopped` status checks that follow the
progress bookkeeping in the loop body. -/
def pollStatus (fs : FileSys) (st' : WaitState) (fi : FileItem) : WaitResult ⊕ WaitState :=
  if fi.status == "completed" || fi.status == "finished" then
    match fi.download_path with
    | some p => if pathExists fs p then Sum.inl (WaitResult.gotPath p) else Sum.inr st'
    | none => Sum.inr st'
  else if fi.status == "stopped" then
    Sum.inl
      (match fi.download_path with
       | some p =>
         match fsLookup fs p with
         | some meta =>
           if meta.size > 0 then WaitResult.gotPath p else WaitResult.stoppedFail
         | none => WaitResult.stoppedFail
       | none => WaitResult.stoppedFail)
  else Sum.inr st'

/-- The body of one poll iteration that got a nonempty item list, in
source order: progress/stall bookkeeping first, then the status checks. -/
def pollStep (fs : FileSys) (st : WaitState) (fi : FileItem) : WaitResult ⊕ WaitState :=
  match pollWritten fs st fi with
  | Sum.inl r => Sum.inl r
  | Sum.inr st' => pollStatus fs st' fi

/-- The poll loop of `wait_for_download`, consuming the response script.
Returns the outcome and the number of `file_list` calls made. -/
def wait_go (fs : FileSys) : WaitState → List PollResponse → WaitResult × Nat
  | st, [] => (WaitResult.ranOut st, 0)
  | st, PollResponse.noResp :: rest =>
    if st.now > 60 then (WaitResult.noStatusFail, 1)
    else
      let r := wait_go fs { st with now := st.now + 2 } rest
      (r.fst, r.snd + 1)
  | st, PollResponse.resp items :: rest =>
    match items with
    | [] =>
      if st.now > 60 then (WaitResult.noItemsFail, 1)
      else
        let r := wait_go fs { st with now := st.now + 2 } rest
        (r.fst, r.snd + 1)
    | fi :: _ =>
      match pollStep fs st fi with
      | Sum.inl r => (r, 1)
      | Sum.inr st' =>
        let r := wait_go fs { st' with now := st'.now + 2 } rest
        (r.fst, r.snd + 1)

/-- `LBRYDaemonClient.wait_for_download`, started at time 0 with no
progress observed yet. -/
def wait_for_download (fs : FileSys) (trace : List PollResponse) : WaitResult × Nat :=
  wait_go fs { now := 0, last_written_bytes := 0, stall_start_time := none } trace

/-- Result mapping of one `get` daemon call. -/
structure GetResult where
  download_path : Option FsPath
  claim_name : Option String
  status : String
  deriving Repr, DecidableEq

/-- Instrumentation events of `get_file`: one `initiateCall` per `get`
daemon call, one `pollEntered` per entry into the `wait_for_download`
loop. -/
inductive GFEvent where
  | initiateCall
  | pollEntered
  deriving Repr, DecidableEq

/-- Result of `get_file` together with its daemon-interaction log. -/
structure GetFileLog where
  path : Option FsPath
  getCalls : Nat
  pollCalls : Nat
  pollLoopsEntered : Nat
  events : List GFEvent
  indeterminate : Bool
  deriving Repr, DecidableEq

/-- The `completed`/`finished` shortcut of an attempt: an existing file of
nonzero size at the reported path. -/
def completedHit (fs : FileSys) (res : GetResult) : Option FsPath :=
  if res.status == "completed" || res.status == "finished" then
    match res.download_path with
    | some p =>
      match fsLookup fs p with
      | some meta => if meta.size > 0 then some p else none
      | none => none
    | none => none
  else none

/-- The `stopped` shortcut of an attempt: an existing file of nonzero size
at the reported path. -/
def stoppedHit (fs : FileSys) (res : GetResult) : Option FsPath :=
  if res.status == "stopped" then
    match res.download_path with
    | some p =>
      match fsLookup fs p with
      | some meta => if meta.size > 0 then some p else none
      | none => none
    | none => none
  else none

/-- The attempt loop of `LBRYDaemonClient.get_file`.  `gets` scripts the
answers to the `get` calls (one consumed per attempt, a missing tail
standing for an unresponsive daemon); `polls` scripts one `file_list`
response list per entry into the poll loop.  The 5-unit retry backoff has
no observable effect in the model and is not tracked. -/
def get_file_go (fs : FileSys) : Nat → List (Option GetResult) → List (List PollResponse) →
    GetFileLog → GetFileLog
  | 0, _, _, acc => { acc with path := none }
  | n + 1, gets, polls, acc =>
    let r := gets.headD none
    let gets' := gets.tail
    let acc := { acc with getCalls := acc.getCalls + 1,
                          events := acc.events ++ [GFEvent.initiateCall] }
    match r with
    | none => get_file_go fs n gets' polls acc
    | some res =>
      match completedHit fs res with
      | some p => { acc with path := some p }
      | none =>
        if res.status == "running" then
          let tr := polls.headD []
          let polls' := polls.tail
          let w := wait_go fs { now := 0, last_written_bytes := 0, stall_start_time := none } tr
          let acc := { acc with pollCalls := acc.pollCalls + w.snd,
                                pollLoopsEntered := acc.pollLoopsEntered + 1,
                                events := acc.events ++ [GFEvent.pollEntered] }
          match w.fst with
          | WaitResult.gotPath p => { acc with path := some p }
          | WaitResult.ranOut _ => { acc with path := none, indeterminate := true }
          | _ => get_file_go fs n gets' polls' acc
        else
          match stoppedHit fs res with
          | some p => { acc with path := some p }
          | none => get_file_go fs n gets' polls acc

/-- `LBRYDaemonClient.get_file` with its default `max_retries = 3`. -/
def get_file (fs : FileSys) (gets : List (Option GetResult))
    (polls : List (List PollResponse)) (max_retries : Nat := 3) : GetFileLog :=
  get_file_go fs max_retries gets polls
    { path := none, getCalls := 0, pollCalls := 0, pollLoopsEntered := 0,
      events := [], indeterminate := false }

/-- The discipline claimed for the attempt loop: no `initiateCall` event
ever follows a `pollEntered` event. -/
def noInitiateAfterPoll : List GFEvent → Bool
  | [] => true
  | GFEvent.pollEntered :: rest =>
    rest.all (fun e => decide (e ≠ GFEvent.initiateCall)) && noInitiateAfterPoll rest
  | GFEvent.initiateCall :: rest => noInitiateAfterPoll rest

/-- Total time units spent on polls that got no response at all, two units
per unanswered `file_list` call (the cumulative no-status time of the
specification). -/
def noStatusTime (trace : List PollResponse) : Nat :=
  2 * trace.countP (fun r => decide (r = PollResponse.noResp))

/-! ## Filesystem cache (`build_filesystem_cache` / `file_exists_in_cache`) -/

/-- Filenames reserved for the engine's own artifacts, excluded from
filesystem scans. -/
def reservedNames : List String :=
  ["download_history.json", "GunCAD_Master_Index.xlsx",
   "GunCAD_Master_Index.csv", "QUICK_FIND.txt", "README.md"]

/-- `DownloadTracker.build_filesystem_cache`: one recursive scan of the
output directory, grouping non-reserved files by bare filename.  The list
order of `fs` stands for `os.walk` order. -/
def build_filesystem_cache (fs : FileSys) (output_dir : FsPath) : FsCache :=
  fs.foldl
    (fun cache e =>
      if insideOutputDir output_dir e.fst && !(reservedNames.contains (basename e.fst)) then
        cacheAppend cache (basename e.fst) e.fst e.snd.size
      else cache)
    []

/-- Dict lookup in the cache. -/
def cacheFind (cache : FsCache) (name : String) : Option (List (FsPath × Nat)) :=
  match cache.find? (fun e => e.fst == name) with
  | some e => some e.snd
  | none => none

/-- First candidate whose size is within 1 percent of the expected size
(`size_diff < expected_size * 0.01`). -/
def sizeToleranceFind (expected_size : Nat) : List (FsPath × Nat) → Option FsPath
  | [] => none
  | (p, sz) :: rest =>
    if |(sz : ℚ) - (expected_size : ℚ)| < (expected_size : ℚ) * (1 / 100) then some p
    else sizeToleranceFind expected_size rest

/-- Choice within one cache bucket: with a positive expected size prefer a
candidate within tolerance, falling back to the first candidate; with no
expected size take the first candidate. -/
def bucketPick (expected_size : Nat) (bucket : List (FsPath × Nat)) : Option FsPath :=
  if expected_size > 0 then
    match sizeToleranceFind expected_size bucket with
    | some p => some p
    | none => (bucket.head?).map Prod.fst
  else (bucket.head?).map Prod.fst

/-- `filename.split(':')[0]`. -/
def colonBase (s : String) : String :=
  (strSplitOn s ":").headD s

/-- Lowercase and collapse dashes and underscores to spaces. -/
def normalizeName (s : String) : String :=
  strMap (fun c => if c = '-' ∨ c = '_' then ' ' else c) (lowerStr s)

/-- `os.path.splitext(name)[0]`. -/
def stripExt (name : String) : String :=
  name.dropRight (extOf name).length

/-- The normalized-name fallback scan of `file_exists_in_cache`: the first
bucket whose extension-stripped, normalized name matches decides the result
(even when it yields nothing). -/
def normalizedFind (expected_size : Nat) (normalized_search : String) : FsCache → Option FsPath
  | [] => none
  | (cached_name, bucket) :: rest =>
    if normalizeName (stripExt cached_name) == normalized_search then
      bucketPick expected_size bucket
    else normalizedFind expected_size normalized_search rest

/-- The pure lookup part of `DownloadTracker.file_exists_in_cache`. -/
def file_exists_in_cache_lookup (cache : FsCache) (filename : String)
    (expected_size : Nat) : Option FsPath :=
  match cacheFind cache filename with
  | some bucket => bucketPick expected_size bucket
  | none => normalizedFind expected_size (normalizeName (colonBase filename)) cache

/-- `DownloadTracker.file_exists_in_cache`: build the cache lazily on first
use, then look the filename up. -/
def file_exists_in_cache (st : TrackerState) (fs : FileSys) (output_dir : FsPath)
    (filename : String) (expected_size : Nat) : Option FsPath × TrackerState :=
  let cache :=
    match st.filesystem_cache with
    | some c => c
    | none => build_filesystem_cache fs output_dir
  (file_exists_in_cache_lookup cache filename expected_size,
   { st with filesystem_cache := some cache })

/-! ## Reconciler (`IntentBasedOrganizer.reconcile_moved_files`) -/

/-- The files of the managed tree carrying a given bare filename, with
their sizes, in walk order: the candidates `os.walk` offers the
reconciler. -/
def walkCandidates (fs : FileSys) (output_dir : FsPath) (filename : String) :
    List (FsPath × Nat) :=
  (fs.filter (fun e => insideOutputDir output_dir e.fst && basename e.fst == filename)).map
    (fun e => (e.fst, e.snd.size))

/-- First candidate whose actual size is within 1 percent of the recorded
size (`abs(new_size - old_size) < old_size * 0.01`); candidates outside
tolerance are passed over and the walk continues. -/
def findSizeMatch (old_size : ℚ) : List (FsPath × Nat) → Option FsPath
  | [] => none
  | (p, sz) :: rest =>
    if |(sz : ℚ) - old_size| < old_size * (1 / 100) then some p
    else findSizeMatch old_size rest

/-- The reconciler's treatment of one index row: rows with an empty
location are skipped; rows whose location still exists are left unchanged
(whether inside or outside the tree — outside ones are merely counted);
rows whose location is gone are repaired from the first same-filename file
in the tree that passes the size test, the first such file unconditionally
when the recorded size fails to parse. -/
def reconcileEntry (fs : FileSys) (output_dir : FsPath) (entry : IndexRecord) : IndexRecord :=
  match entry.location with
  | none => entry
  | some old_path =>
    if pathExists fs old_path then entry
    else
      let filename := basename old_path
      let cands := walkCandidates fs output_dir filename
      match entry.fileSizeMB with
      | none =>
        match cands.head? with
        | some c => { entry with location := some c.fst }
        | none => entry
      | some mb =>
        match findSizeMatch (mb * 1024 * 1024) cands with
        | some p => { entry with location := some p }
        | none => entry

/-- `IntentBasedOrganizer.reconcile_moved_files` (the printed counters are
not modelled). -/
def reconcile_moved_files (fs : FileSys) (output_dir : FsPath)
    (master_index : List IndexRecord) : List IndexRecord :=
  master_index.map (reconcileEntry fs output_dir)

/-! ## Orchestrator (`GunCADDownloaderV6.process_entry` / `run`)

The classification taxonomy (`categorize_file` and friends) is, per the
specification, an external pure collaborator; it enters the model as the
`classify` field of the configuration.  Spreadsheet/README regeneration
writes only reserved artifact files, which live outside the modelled
filesystem. -/

/-- The category record returned by `get_folder_path`. -/
structure CategoryInfo where
  category : String
  gun_model : Option String
  caliber : Option String
  part_type : Option String
  deriving Repr, DecidableEq

/-- Run configuration: the managed output root, the tag exclusion filter
and the (external, pure) classification function. -/
structure Config where
  output_dir : FsPath
  excluded_tags : List String
  classify : String → List String → String → CategoryInfo

/-- `IntentBasedOrganizer.sanitize_filename`. -/
def sanitize_filename (filename : String) : String :=
  strMap (fun c =>
    if c ∈ ['<', '>', ':', '\"', '/', '\\', '|', '?', '*'] then '_' else c) filename

/-- `IntentBasedOrganizer.get_folder_path`: join the output root with the
slash-separated category path. -/
def get_folder_path (cfg : Config) (title : String) (tags : List String)
    (description : String) : FsPath × CategoryInfo :=
  let ci := cfg.classify title tags description
  (cfg.output_dir ++ strSplitOn ci.category "/", ci)

/-- The expected filename extracted from the LBRY URL via
`urlparse`: fragment stripped first, then the path without its leading
slashes, falling back to the netloc. -/
def expected_filename_of (lbry_url : String) : String :=
  let nofrag := (strSplitOn lbry_url "#").headD ""
  match strSplitOn nofrag "://" with
  | [] => ""
  | [pathOnly] => String.mk (pathOnly.toList.dropWhile (fun c => c = '/'))
  | _scheme :: t =>
    let rest := String.intercalate "://" t
    match strSplitOn rest "/" with
    | [] => ""
    | netloc :: pathComps =>
      let path :=
        String.mk ((String.intercalate "/" pathComps).toList.dropWhile (fun c => c = '/'))
      if path != "" then path else netloc

/-- `IntentBasedOrganizer.add_to_index`: replace the first row matching by
LBRY URL, filename or location, else append.  The `title` argument is in
the source signature but unused by the row it builds. -/
def add_to_index (master_index : List IndexRecord) (filename : String) (filepath : FsPath)
    (title : String) (tags : List String) (ci : CategoryInfo) (file_size : Nat)
    (lbry_url detail_url : String) : List IndexRecord :=
  let new_entry : IndexRecord :=
    { fileName := filename, location := some filepath, lbryUrl := lbry_url,
      detailUrl := detail_url,
      fileSizeMB := some ((file_size : ℚ) / (1024 * 1024)),
      tags := String.intercalate ", " tags, category := ci.category }
  match master_index.findIdx? (fun e =>
      (e.lbryUrl == lbry_url && lbry_url != "") || e.fileName == filename ||
        e.location == some filepath) with
  | some i => master_index.set i new_entry
  | none => master_index ++ [new_entry]

/-- One catalog entry, reduced to the fields the engine reads. -/
structure CatalogEntry where
  title : String
  detail_url : String
  lbry_url : String
  tags : List String
  description : String
  size : Nat
  deriving Repr, DecidableEq

/-- The whole mutable world of a run: tracker, master index, filesystem,
the daemon's availability and its remaining response script, plus the
session counters and daemon-call instrumentation. -/
structure SysState where
  tracker : TrackerState
  master_index : List IndexRecord
  fs : FileSys
  lbry_available : Bool
  gets : List (Option GetResult)
  polls : List (List PollResponse)
  daemonCalls : Nat
  session_successful : Nat
  session_failed : Nat
  session_skipped_by_filter : Nat
  indeterminate : Bool
  deriving Repr, DecidableEq

/-- Delete a path. -/
def fsRemove (fs : FileSys) (p : FsPath) : FileSys :=
  fs.filter (fun e => e.fst != p)

/-- Create or overwrite a path with the given metadata. -/
def fsInsert (fs : FileSys) (p : FsPath) (m : FileMeta) : FileSys :=
  fsRemove fs p ++ [(p, m)]

/-- `GunCADDownloaderV6.process_entry`.  The `shutil.move`-falls-back-to-
`copy2` dance and `os.makedirs` are modelled by their net filesystem
effect; the `OSError` branch that records an organize failure is not
scripted (I/O never fails in the model). -/
def process_entry (cfg : Config) (md5 : String → String) (S : SysState)
    (entry : CatalogEntry) : SysState :=
  let title := sanitize_filename entry.title
  let detail_url := entry.detail_url
  let tags := entry.tags
  let description := entry.description
  if cfg.excluded_tags.any (fun t => tags.contains t) then
    { S with session_skipped_by_filter := S.session_skipped_by_filter + 1 }
  else
    let lbry_url := entry.lbry_url
    if lbry_url == "" then
      { S with tracker := mark_failed md5 S.tracker detail_url title "No LBRY URL" "",
               session_failed := S.session_failed + 1 }
    else
      let expected_filename := expected_filename_of lbry_url
      let cacheStep :=
        if expected_filename != "" then
          file_exists_in_cache S.tracker S.fs cfg.output_dir expected_filename entry.size
        else (none, S.tracker)
      let S1 := { S with tracker := cacheStep.snd }
      match cacheStep.fst with
      | some existing_path =>
        let file_size := ((fsLookup S1.fs existing_path).map FileMeta.size).getD 0
        let fp := get_folder_path cfg title tags description
        let mi := add_to_index S1.master_index expected_filename existing_path title tags
          fp.snd file_size lbry_url detail_url
        { S1 with
          master_index := mi,
          tracker := mark_downloaded md5 S1.fs S1.tracker detail_url title existing_path
            tags true file_size (some fp.snd.category) fp.snd.gun_model fp.snd.caliber,
          session_successful := S1.session_successful + 1 }
      | none =>
        if !S1.lbry_available then
          { S1 with
            tracker := mark_failed md5 S1.tracker detail_url title "No daemon" lbry_url,
            session_failed := S1.session_failed + 1 }
        else
          let log := get_file S1.fs S1.gets S1.polls 3
          let S2 := { S1 with
            gets := S1.gets.drop log.getCalls,
            polls := S1.polls.drop log.pollLoopsEntered,
            daemonCalls := S1.daemonCalls + log.getCalls + log.pollCalls,
            indeterminate := S1.indeterminate || log.indeterminate }
          match log.path with
          | none =>
            { S2 with
              tracker := mark_failed md5 S2.tracker detail_url title "Download failed" lbry_url,
              session_failed := S2.session_failed + 1 }
          | some download_path =>
            let v := verify_file S2.fs download_path
            if !v.fst then
              { S2 with
                tracker := mark_failed md5 S2.tracker detail_url title
                  ("Verification: " ++ v.snd) lbry_url,
                session_failed := S2.session_failed + 1 }
            else
              let fp := get_folder_path cfg title tags description
              let filename := basename download_path
              let final_path := fp.fst ++ [filename]
              let meta := (fsLookup S2.fs download_path).getD
                { size := 0, isPK := false, zipTest := ZipTest.badZip }
              let fs' :=
                if download_path == final_path then S2.fs
                else fsInsert (fsRemove (fsRemove S2.fs final_path) download_path)
                  final_path meta
              let file_size := meta.size
              let mi := add_to_index S2.master_index filename final_path title tags fp.snd
                file_size lbry_url detail_url
              { S2 with
                fs := fs',
                master_index := mi,
                tracker := mark_downloaded md5 fs' S2.tracker detail_url title final_path
                  tags true file_size (some fp.snd.category) fp.snd.gun_model fp.snd.caliber,
                session_successful := S2.session_successful + 1 }

/-- `GunCADDownloaderV6.run`: abort without a daemon; with `checkNewOnly`
filter the catalog through `is_downloaded` against the pre-run state; then
process the remaining entries in order.  Index/README regeneration touches
only reserved artifacts outside the modelled state. -/
def run (cfg : Config) (md5 : String → String) (S : SysState)
    (catalog : List CatalogEntry) (check_new_only : Bool) : SysState :=
  if !S.lbry_available then S
  else
    let all_entries :=
      if check_new_only then
        catalog.filter (fun e =>
          !(is_downloaded md5 S.fs cfg.output_dir S.master_index S.tracker.history
              e.detail_url e.lbry_url e.size))
      else catalog
    all_entries.foldl (process_entry cfg md5) S

/-! ## Sample data used by the closed witnesses and counterexamples -/

/-- A digest function for concrete instantiations. -/
def mdId : String → String := fun s => s

/-- A healthy 100-byte zip file. -/
def metaZip100 : FileMeta := { size := 100, isPK := true, zipTest := ZipTest.valid 3 }

/-- An in-tree sample path. -/
def pIn : FsPath := ["root", "Misc", "a.zip"]

/-- An out-of-tree sample path. -/
def pOut : FsPath := ["elsewhere", "a.zip"]

/-- A filesystem with one in-tree file. -/
def fsIn : FileSys := [(pIn, metaZip100)]

/-- An index row locating `lbry://a` at the in-tree path. -/
def recIn : IndexRecord :=
  { fileName := "a.zip", location := some pIn, lbryUrl := "lbry://a",
    detailUrl := "D1", fileSizeMB := some 0, tags := "", category := "" }

/-- The failure-shaped ledger entry `mark_failed` writes. -/
def entryFailed : HistEntry :=
  { title := "T", detail_url := "D1", filepath := none, status := some "failed",
    lbry_url := "lbry://a", reason := "Download failed", tags := [],
    file_exists := false, verified := false, file_size := 0,
    category := none, gun_model := none, caliber := none }

/-! ## Claim C2 -/

/-- C2: when `isAlreadyAcquired` finds an index row with matching locator
(the row its scan stops at), and that row's recorded location exists on
disk, the answer is exactly "the location resolves into the managed output
tree": inside means already acquired, outside means not acquired. -/
theorem excel_match_decides (md5 : String → String) (fs : FileSys) (outputDir : FsPath)
    (excel_index : List IndexRecord) (history : List (String × HistEntry))
    (detail_url lbry_url : String) (expected_size : Nat) (rec : IndexRecord) (p : FsPath)
    (hl : lbry_url ≠ "")
    (hfind : excel_index.find? (fun e => e.lbryUrl == lbry_url) = some rec)
    (hloc : rec.location = some p)
    (hex : pathExists fs p = true) :
    is_downloaded md5 fs outputDir excel_index history detail_url lbry_url expected_size =
      insideOutputDir outputDir p := by
  have hne : excel_index.isEmpty = false := by
    cases excel_index with
    | nil => simp at hfind
    | cons a l => rfl
  unfold is_downloaded excelPhase
  rw [hne]
  have hl' : (lbry_url == "") = false := by simpa using hl
  rw [hl']
  simp only [Bool.false_eq_true, if_false, Bool.or_self, hfind]
  unfold excelDecision
  rw [hloc]
  cases hb : insideOutputDir outputDir p <;> simp [hex, hb]

/-- Witness for C2 at a concrete world: the matching row's file exists at
`pIn` inside the tree, so the item is reported as already acquired. -/
theorem excel_match_decides_witness :
    is_downloaded mdId fsIn ["root"] [recIn] [] "D1" "lbry://a" 0 =
      insideOutputDir ["root"] pIn :=
  excel_match_decides mdId fsIn ["root"] [recIn] [] "D1" "lbry://a" 0 recIn pIn
    (by decide) (by decide) (by decide) (by decide)

/-! ## Claim C8 -/

/-- C8: once the lookup reaches the ledger, an entry recorded as `failed`
is never treated as already acquired, whatever else the entry stores. -/
theorem failed_entry_not_downloaded (md5 : String → String) (fs : FileSys)
    (outputDir : FsPath) (excel_index : List IndexRecord)
    (history : List (String × HistEntry)) (detail_url lbry_url : String)
    (expected_size : Nat) (entry : HistEntry)
    (hexcel : excelPhase fs outputDir excel_index lbry_url = none)
    (hist : histLookup history (get_entry_id md5 detail_url) = some entry)
    (hstatus : entry.status = some "failed") :
    is_downloaded md5 fs outputDir excel_index history detail_url lbry_url expected_size =
      false := by
  unfold is_downloaded
  rw [hexcel]
  unfold ledgerPhase
  rw [hist]
  simp [hstatus]

/-- Witness for C8: a failed ledger entry for `D1` forces a retry. -/
theorem failed_entry_not_downloaded_witness :
    is_downloaded mdId fsIn ["root"] [] [("D1", entryFailed)] "D1" "lbry://a" 0 = false :=
  failed_entry_not_downloaded mdId fsIn ["root"] [] [("D1", entryFailed)] "D1" "lbry://a" 0
    entryFailed (by decide) (by decide) (by decide)

/-! ## Claim C10 -/

/-- A second index row for the same locator with an empty location. -/
def recNoLoc : IndexRecord := { recIn with location := none }

/-- C10, counterexample: an index row with matching locator and empty
location exists (`recNoLoc`), yet `is_downloaded` returns `true`, because
only the FIRST matching row (here `recIn`, healthy) decides — the claim's
"whenever any index row for the same locator has a stale or empty
location" is false. -/
theorem stale_row_shadows_ledger_cex :
    is_downloaded mdId fsIn ["root"] [recIn, recNoLoc] [] "D1" "lbry://a" 0 = true ∧
      ∃ r ∈ [recIn, recNoLoc], r.lbryUrl = "lbry://a" ∧ r.location = none := by
  refine ⟨by decide, recNoLoc, by simp, by decide, by decide⟩

/-- C10, amended: when the FIRST index row with matching locator has an
empty or no-longer-existing location, `is_downloaded` returns `false`
without consulting the ledger — the result is `false` for every possible
history, so a valid success ledger entry is ignored. -/
theorem first_stale_row_shadows_ledger (md5 : String → String) (fs : FileSys)
    (outputDir : FsPath) (excel_index : List IndexRecord)
    (history history' : List (String × HistEntry)) (detail_url lbry_url : String)
    (expected_size : Nat) (rec : IndexRecord)
    (hl : lbry_url ≠ "")
    (hfind : excel_index.find? (fun e => e.lbryUrl == lbry_url) = some rec)
    (hbad : rec.location = none ∨ ∃ p, rec.location = some p ∧ pathExists fs p = false) :
    is_downloaded md5 fs outputDir excel_index history detail_url lbry_url expected_size =
        false ∧
      is_downloaded md5 fs outputDir excel_index history detail_url lbry_url expected_size =
        is_downloaded md5 fs outputDir excel_index history' detail_url lbry_url
          expected_size := by
  have hne : excel_index.isEmpty = false := by
    cases excel_index with
    | nil => simp at hfind
    | cons a l => rfl
  have hl' : (lbry_url == "") = false := by simpa using hl
  have hdec : excelDecision fs outputDir rec = false := by
    unfold excelDecision
    rcases hbad with h | ⟨p, hp, hex⟩
    · rw [h]
    · rw [hp]
      simp [hex]
  have hphase : excelPhase fs outputDir excel_index lbry_url = some false := by
    unfold excelPhase
    rw [hne, hl']
    simp only [Bool.false_eq_true, if_false, Bool.or_self, hfind, hdec]
  constructor
  · unfold is_downloaded
    rw [hphase]
  · unfold is_downloaded
    rw [hphase]

/-- Witness for the amended C10: with the stale row first, the result is
`false` and agrees between an empty history and a history holding a valid
success entry for the same item. -/
theorem first_stale_row_shadows_ledger_witness :
    is_downloaded mdId fsIn ["root"] [recNoLoc, recIn] [] "D1" "lbry://a" 0 = false ∧
      is_downloaded mdId fsIn ["root"] [recNoLoc, recIn] [] "D1" "lbry://a" 0 =
        is_downloaded mdId fsIn ["root"] [recNoLoc, recIn]
          [("D1", { entryFailed with status := none, filepath := some pIn })]
          "D1" "lbry://a" 0 :=
  first_stale_row_shadows_ledger mdId fsIn ["root"] [recNoLoc, recIn] []
    [("D1", { entryFailed with status := none, filepath := some pIn })]
    "D1" "lbry://a" 0 recNoLoc (by decide) (by decide) (Or.inl (by decide))

/-! ## Claim C9 -/

/-- C9: verification fails exactly on a missing or empty file; every
existing nonzero-size file is accepted — an archive with a corrupt member
is accepted with the degraded message, and unrecognized non-archive types
are accepted unconditionally. -/
theorem verify_file_advisory (fs : FileSys) (p : FsPath) :
    ((verify_file fs p).fst = false ↔
      fsLookup fs p = none ∨ ∃ m, fsLookup fs p = some m ∧ m.size = 0) ∧
    (∀ m name, fsLookup fs p = some m → m.size ≠ 0 →
      ((lowerStr (extOf (basename p)) == ".zip") || m.isPK) = true →
      m.zipTest = ZipTest.corruptMember name →
      verify_file fs p = (true, degradedZipMsg)) ∧
    (∀ m, fsLookup fs p = some m → m.size ≠ 0 →
      ((lowerStr (extOf (basename p)) == ".zip") || m.isPK) = false →
      cad_formats.contains (lowerStr (extOf (basename p))) = false →
      verify_file fs p = (true, "File downloaded")) := by
  refine ⟨?_, ?_, ?_⟩
  · unfold verify_file
    cases hm : fsLookup fs p with
    | none => simp
    | some m =>
      by_cases hz : m.size = 0
      · simp [hz]
      · simp only [hz, if_false]
        constructor
        · intro hfalse
          exfalso
          revert hfalse
          split
          · split <;> simp
          · split <;> simp
        · rintro (h | ⟨m', hm', hz'⟩)
          · exact absurd h (by simp)
          · exact absurd hz (by simp_all)
  · intro m name hm hz hzip hcorrupt
    unfold verify_file
    rw [hm]
    have : verify_zip m = (false, "Corrupt file: " ++ name) := by
      unfold verify_zip
      rw [hcorrupt]
    simp [hz, is_zip_file] at hzip ⊢
    rcases hzip with h | h
    · simp [h, this]
    · simp [h, this]
  · intro m hm hz hnzip hcad
    unfold verify_file
    rw [hm]
    have hmem : lowerStr (extOf (basename p)) ∉ cad_formats := by
      simpa using hcad
    simp only [is_zip_file] at hnzip ⊢
    simp [hz, hnzip, hmem]

/-- A PK-magic file whose archive scan reports a corrupt member. -/
def metaCorrupt : FileMeta :=
  { size := 40, isPK := true, zipTest := ZipTest.corruptMember "bad.stl" }

/-- A filesystem carrying the corrupt archive at an in-tree path. -/
def fsCorrupt : FileSys := [(["root", "Misc", "b.bin"], metaCorrupt)]

/-- Witness for C9: the corrupt archive is accepted with the degraded
message. -/
theorem verify_file_advisory_witness :
    verify_file fsCorrupt ["root", "Misc", "b.bin"] = (true, degradedZipMsg) :=
  (verify_file_advisory fsCorrupt ["root", "Misc", "b.bin"]).2.1 metaCorrupt "bad.stl"
    (by decide) (by decide) (by decide) (by decide)

/-! ## Claim C7 -/

/-- Members of an upserted list: the fresh binding or an original one. -/
theorem mem_upsert {k : String} {v : HistEntry} {l : List (String × HistEntry)}
    {kv : String × HistEntry} (h : kv ∈ upsert k v l) : kv = (k, v) ∨ kv ∈ l := by
  induction l with
  | nil => simpa [upsert] using h
  | cons a l ih =>
    obtain ⟨k2, v2⟩ := a
    by_cases hk : k2 = k
    · subst hk
      simp only [upsert, beq_self_eq_true, if_true] at h
      rcases List.mem_cons.mp h with h | h
      · exact Or.inl h
      · exact Or.inr (List.mem_cons_of_mem _ h)
    · simp only [upsert, beq_iff_eq, hk, if_false] at h
      rcases List.mem_cons.mp h with h | h
      · exact Or.inr (List.mem_cons.mpr (Or.inl h))
      · rcases ih h with h | h
        · exact Or.inl h
        · exact Or.inr (List.mem_cons_of_mem _ h)

/-- Keys after an upsert: unchanged when the key was present, the key
appended otherwise. -/
theorem keys_upsert (k : String) (v : HistEntry) (l : List (String × HistEntry)) :
    (upsert k v l).map Prod.fst =
      if k ∈ l.map Prod.fst then l.map Prod.fst else l.map Prod.fst ++ [k] := by
  induction l with
  | nil => simp [upsert]
  | cons a l ih =>
    obtain ⟨k2, v2⟩ := a
    by_cases hk : k2 = k
    · subst hk
      simp [upsert]
    · simp only [upsert, beq_iff_eq, hk, if_false, List.map_cons, ih]
      by_cases hmem : k ∈ l.map Prod.fst
      · simp [hmem, Ne.symm hk]
      · simp [hmem, Ne.symm hk]

/-- Upserting preserves distinctness of the keys. -/
theorem nodup_keys_upsert {k : String} {v : HistEntry} {l : List (String × HistEntry)}
    (h : (l.map Prod.fst).Nodup) : ((upsert k v l).map Prod.fst).Nodup := by
  rw [keys_upsert]
  by_cases hmem : k ∈ l.map Prod.fst
  · simpa [hmem] using h
  · simp only [hmem, if_false]
    exact List.Nodup.append h (List.nodup_singleton k) (by simpa using hmem)

/-- Looking up the upserted key yields the fresh value, whatever was there
before. -/
theorem histLookup_upsert_self (k : String) (v : HistEntry) (l : List (String × HistEntry)) :
    histLookup (upsert k v l) k = some v := by
  induction l with
  | nil => simp [upsert, histLookup]
  | cons a l ih =>
    obtain ⟨k2, v2⟩ := a
    by_cases hk : k2 = k
    · subst hk
      simp [upsert, histLookup]
    · have hbeq : (k2 == k) = false := by simpa using hk
      simp only [upsert, beq_iff_eq, hk, if_false]
      simpa [histLookup, List.find?, hbeq] using ih

/-- The history written by `applyOp`. -/
theorem applyOp_history (md5 : String → String) (fs : FileSys) (st : TrackerState)
    (op : TrackerOp) : ∃ e : HistEntry, e.detail_url = op.detailUrl ∧
      (applyOp md5 fs st op).history = upsert (md5 op.detailUrl) e st.history ∧
      (applyOp md5 fs st op).historyDisk = upsert (md5 op.detailUrl) e st.history ∧
      ∀ st' : TrackerState,
        ∃ e' : HistEntry, e' = e ∧
          (applyOp md5 fs st' op).history = upsert (md5 op.detailUrl) e st'.history := by
  cases op with
  | markDownloaded d t fp tags v sz c g cal =>
    refine ⟨_, rfl, rfl, rfl, fun st' => ⟨_, rfl, rfl⟩⟩
  | markFailed d t r lu =>
    refine ⟨_, rfl, rfl, rfl, fun st' => ⟨_, rfl, rfl⟩⟩

/-- C7: after any sequence of `mark_downloaded`/`mark_failed` operations,
every ledger binding keys its entry by the digest of that entry's own
detail URL, keys are pairwise distinct (one entry per detail reference —
an operation for an existing key fully replaces the prior entry, and the
replacement is independent of whatever was stored before), and the
persisted copy equals the in-memory ledger after every single operation. -/
theorem ledger_key_invariant (md5 : String → String) (fs : FileSys) :
    (∀ st op, LedgerInv md5 st → LedgerInv md5 (applyOp md5 fs st op)) ∧
    (∀ st ops, LedgerInv md5 st → LedgerInv md5 (runOps md5 fs st ops)) ∧
    (∀ st op, (applyOp md5 fs st op).historyDisk = (applyOp md5 fs st op).history) ∧
    (∀ st st' op,
      histLookup (applyOp md5 fs st op).history (get_entry_id md5 op.detailUrl) =
        histLookup (applyOp md5 fs st' op).history (get_entry_id md5 op.detailUrl)) ∧
    (∀ st op,
      (histLookup (applyOp md5 fs st op).history
          (get_entry_id md5 op.detailUrl)).isSome = true) := by
  have hstep : ∀ st op, LedgerInv md5 st → LedgerInv md5 (applyOp md5 fs st op) := by
    intro st op hinv
    obtain ⟨e, hd, hh, _, _⟩ := applyOp_history md5 fs st op
    constructor
    · rw [hh]
      exact nodup_keys_upsert hinv.1
    · intro kv hkv
      rw [hh] at hkv
      rcases mem_upsert hkv with h | h
      · subst h
        simpa [hd]
      · exact hinv.2 kv h
  refine ⟨hstep, ?_, ?_, ?_, ?_⟩
  · intro st ops
    induction ops generalizing st with
    | nil => intro h; exact h
    | cons op ops ih =>
      intro h
      exact ih _ (hstep st op h)
  · intro st op
    obtain ⟨e, _, hh, hdisk, _⟩ := applyOp_history md5 fs st op
    rw [hh, hdisk]
  · intro st st' op
    obtain ⟨e, _, hh, _, hother⟩ := applyOp_history md5 fs st op
    obtain ⟨e', he', hh'⟩ := hother st'
    rw [hh, hh', get_entry_id, histLookup_upsert_self, histLookup_upsert_self]
  · intro st op
    obtain ⟨e, _, hh, _, _⟩ := applyOp_history md5 fs st op
    rw [hh, get_entry_id, histLookup_upsert_self]
    rfl

/-- Witness for C7: from the empty tracker, a failure record followed by a
success record for the same detail URL leaves a well-keyed ledger. -/
theorem ledger_key_invariant_witness :
    LedgerInv mdId { history := [], historyDisk := [], filesystem_cache := none } ∧
      LedgerInv mdId
        (runOps mdId fsIn { history := [], historyDisk := [], filesystem_cache := none }
          [TrackerOp.markFailed "D1" "T" "Download failed" "lbry://a",
           TrackerOp.markDownloaded "D1" "T" pIn [] true 100 (some "Misc") none none]) :=
  ⟨⟨by simp, by simp⟩,
    (ledger_key_invariant mdId fsIn).2.1
      { history := [], historyDisk := [], filesystem_cache := none }
      [TrackerOp.markFailed "D1" "T" "Download failed" "lbry://a",
       TrackerOp.markDownloaded "D1" "T" pIn [] true 100 (some "Misc") none none]
      ⟨by simp, by simp⟩⟩

/-! ## Claim C3 -/

/-- A `get` response reporting a running transfer. -/
def gRunning : GetResult :=
  { download_path := none, claim_name := some "c", status := "running" }

/-- A poll response that stops the transfer with no materialized file,
making the poll loop fail at once. -/
def trStop : List PollResponse :=
  [PollResponse.resp [{ status := "stopped", download_path := none, written_total := none }]]

/-- The empty instrumentation log `get_file` starts from. -/
def emptyGFLog : GetFileLog :=
  { path := none, getCalls := 0, pollCalls := 0, pollLoopsEntered := 0,
    events := [], indeterminate := false }

/-- C3, counterexample: with a daemon that thrice reports `running` and a
poll loop that thrice ends in a terminal failure, `get_file` enters the
poll loop on the first attempt and afterwards calls initiate twice more —
the claim that the poll loop is the final attempt and is never followed by
another initiate is false. -/
theorem poll_loop_retried_cex :
    noInitiateAfterPoll
        (get_file [] [some gRunning, some gRunning, some gRunning]
          [trStop, trStop, trStop] 3).events = false ∧
      (get_file [] [some gRunning, some gRunning, some gRunning]
          [trStop, trStop, trStop] 3).getCalls = 3 ∧
      (get_file [] [some gRunning, some gRunning, some gRunning]
          [trStop, trStop, trStop] 3).pollLoopsEntered = 3 := by
  refine ⟨by decide, by decide, by decide⟩

/-- C3, amended: a successful poll loop ends the whole `acquire` call with
that path at once; a poll loop ending in any terminal failure (stalled,
stopped without file, no items, no status) merely consumes the attempt,
and the outer loop proceeds to the next attempt — calling initiate again
when attempts remain. -/
theorem attempt_loop_poll_policy (fs : FileSys) (n : Nat)
    (gets : List (Option GetResult)) (polls : List (List PollResponse))
    (tr : List PollResponse) (res : GetResult) (acc : GetFileLog)
    (hrun : res.status = "running")
    (hnc : completedHit fs res = none) :
    (∀ p,
      (wait_go fs { now := 0, last_written_bytes := 0, stall_start_time := none } tr).fst =
          WaitResult.gotPath p →
      get_file_go fs (n + 1) (some res :: gets) (tr :: polls) acc =
        { acc with
          path := some p,
          getCalls := acc.getCalls + 1,
          pollCalls := acc.pollCalls +
            (wait_go fs { now := 0, last_written_bytes := 0, stall_start_time := none }
                tr).snd,
          pollLoopsEntered := acc.pollLoopsEntered + 1,
          events := acc.events ++ [GFEvent.initiateCall, GFEvent.pollEntered] }) ∧
    (∀ r,
      (wait_go fs { now := 0, last_written_bytes := 0, stall_start_time := none } tr).fst =
          r →
      (r = WaitResult.stalledFail ∨ r = WaitResult.stoppedFail ∨
        r = WaitResult.noItemsFail ∨ r = WaitResult.noStatusFail) →
      get_file_go fs (n + 1) (some res :: gets) (tr :: polls) acc =
        get_file_go fs n gets polls
          { acc with
            getCalls := acc.getCalls + 1,
            pollCalls := acc.pollCalls +
              (wait_go fs { now := 0, last_written_bytes := 0, stall_start_time := none }
                  tr).snd,
            pollLoopsEntered := acc.pollLoopsEntered + 1,
            events := acc.events ++ [GFEvent.initiateCall, GFEvent.pollEntered] }) := by
  have hs : (res.status == "running") = true := by simp [hrun]
  constructor
  · intro p hp
    simp only [get_file_go, List.headD, List.tail, hnc, hs, if_true, hp,
      List.append_assoc, List.singleton_append]
  · intro r hr hcases
    rcases hcases with rfl | rfl | rfl | rfl <;>
      simp only [get_file_go, List.headD, List.tail, hnc, hs, if_true, hr,
        List.append_assoc, List.singleton_append]

/-- Witness for the amended C3: one running attempt whose poll loop fails
(stopped, no file) hands control back to the attempt loop. -/
theorem attempt_loop_poll_policy_witness :
    get_file_go [] 1 [some gRunning] [trStop] emptyGFLog =
      get_file_go [] 0 [] []
        { emptyGFLog with
          getCalls := emptyGFLog.getCalls + 1,
          pollCalls := emptyGFLog.pollCalls +
            (wait_go [] { now := 0, last_written_bytes := 0, stall_start_time := none }
                trStop).snd,
          pollLoopsEntered := emptyGFLog.pollLoopsEntered + 1,
          events := emptyGFLog.events ++ [GFEvent.initiateCall, GFEvent.pollEntered] } :=
  (attempt_loop_poll_policy [] 0 [] [] trStop gRunning emptyGFLog rfl (by decide)).2
    WaitResult.stoppedFail (by decide) (Or.inr (Or.inl rfl))

/-! ## Claim C4 -/

/-- Path the stalling transfer reports. -/
def pStall : FsPath := ["tmp", "s.zip"]

/-- Path of the finally completed file. -/
def pDone : FsPath := ["tmp", "d.zip"]

/-- A poll item whose `written_bytes` sits at 5. -/
def fiConst : FileItem :=
  { status := "running", download_path := some pStall, written_total := some (5, 100) }

/-- A poll item showing fresh progress. -/
def fiProg : FileItem :=
  { status := "running", download_path := some pStall, written_total := some (6, 100) }

/-- A completed poll item pointing at the materialized file. -/
def fiDone : FileItem :=
  { status := "completed", download_path := some pDone, written_total := some (100, 100) }

/-- Filesystem holding only the completed file. -/
def fsDone : FileSys := [(pDone, metaZip100)]

/-- 16 polls (30 time-units) of constant `written_bytes`, then progress and
completion. -/
def trC4 : List PollResponse :=
  List.replicate 16 (PollResponse.resp [fiConst]) ++
    [PollResponse.resp [fiProg], PollResponse.resp [fiDone]]

/-- C4, counterexample: a sequence with 16 consecutive constant-progress
polls at 2-unit intervals (30 time-units without increase) is NOT declared
stalled — the loop keeps polling and ends in success at `pDone`, although
no file exists at the reported path `pStall`; the claim would demand a
terminal "stalled" failure before ever reaching those later polls. -/
theorem stall_16_polls_cex :
    (wait_for_download fsDone trC4).fst = WaitResult.gotPath pDone ∧
      trC4.take 16 = List.replicate 16 (PollResponse.resp [fiConst]) ∧
      fsLookup fsDone pStall = none := by
  refine ⟨by decide, by decide, by decide⟩

/-- C4, amended: stall is declared at the first poll lying strictly more
than 30 time-units after the first non-increasing observation (with 2-unit
polls, the 17th consecutive constant poll); the final check is on the path
carried by the stalling response itself: an existing nonzero-size file
there means success, anything else means the terminal "stalled" failure,
and a response without the threshold exceeded just keeps polling. -/
theorem stall_policy (fs : FileSys) (st : WaitState) (s0 : Nat) (fi : FileItem)
    (rest : List PollResponse) (w t : Nat)
    (hw : fi.written_total = some (w, t))
    (hnoprog : ¬ w > st.last_written_bytes)
    (hss : st.stall_start_time = some s0) :
    (st.now - s0 > 30 →
      ∀ p m, fi.download_path = some p → fsLookup fs p = some m → 0 < m.size →
        (wait_go fs st (PollResponse.resp [fi] :: rest)).fst = WaitResult.gotPath p) ∧
    (st.now - s0 > 30 →
      (fi.download_path = none ∨
        ∃ p, fi.download_path = some p ∧
          (fsLookup fs p = none ∨ ∃ m, fsLookup fs p = some m ∧ m.size = 0)) →
      (wait_go fs st (PollResponse.resp [fi] :: rest)).fst = WaitResult.stalledFail) ∧
    (st.now - s0 ≤ 30 → fi.status = "running" →
      (wait_go fs st (PollResponse.resp [fi] :: rest)).fst =
        (wait_go fs { st with now := st.now + 2 } rest).fst) := by
  refine ⟨?_, ?_, ?_⟩
  · intro h30 p m hdp hfm hsz
    simp only [wait_go, pollStep, pollWritten, hw, if_neg hnoprog, hss, if_pos h30,
      hdp, hfm]
    rw [if_pos hsz]
  · intro h30 hbad
    rcases hbad with hdp | ⟨p, hdp, hfp⟩
    · simp only [wait_go, pollStep, pollWritten, hw, if_neg hnoprog, hss, if_pos h30, hdp]
    · rcases hfp with hfp | ⟨m, hfp, hsz⟩
      · simp only [wait_go, pollStep, pollWritten, hw, if_neg hnoprog, hss, if_pos h30,
          hdp, hfp]
      · simp only [wait_go, pollStep, pollWritten, hw, if_neg hnoprog, hss, if_pos h30,
          hdp, hfp]
        rw [if_neg (by omega)]
  · intro h30 hstatus
    have h30' : ¬ st.now - s0 > 30 := by omega
    have hc : (fi.status == "completed" || fi.status == "finished") = false := by
      simp [hstatus]
    have hst : (fi.status == "stopped") = false := by simp [hstatus]
    simp only [wait_go, pollStep, pollWritten, pollStatus, hw, if_neg hnoprog, hss,
      if_neg h30', hc, hst, Bool.false_eq_true, if_false]

/-- Witness for the amended C4: a stalled poll whose response reports a
path with no file behind it ends the loop with the "stalled" failure. -/
theorem stall_policy_witness :
    (wait_go [] { now := 34, last_written_bytes := 5, stall_start_time := some 2 }
        (PollResponse.resp [fiConst] :: [])).fst = WaitResult.stalledFail :=
  (stall_policy [] { now := 34, last_written_bytes := 5, stall_start_time := some 2 }
      2 fiConst [] 5 100 rfl (by decide) rfl).2.1 (by decide)
    (Or.inr ⟨pStall, rfl, Or.inl (by decide)⟩)

/-! ## Claim C5 -/

/-- A poll iteration that continues never touches the clock. -/
theorem pollWritten_inr_now (fs : FileSys) (st : WaitState) (fi : FileItem)
    (st' : WaitState) (h : pollWritten fs st fi = Sum.inr st') : st'.now = st.now := by
  unfold pollWritten at h
  repeat' split at h
  all_goals
    first
      | exact Sum.noConfusion h
      | (injection h with h2; subst h2; rfl)

/-- The status checks either return or hand the state back untouched. -/
theorem pollStatus_inr (fs : FileSys) (st : WaitState) (fi : FileItem)
    (st' : WaitState) (h : pollStatus fs st fi = Sum.inr st') : st' = st := by
  unfold pollStatus at h
  repeat' split at h
  all_goals
    first
      | exact Sum.noConfusion h
      | (injection h with h2; subst h2; rfl)

theorem pollStep_inr_now (fs : FileSys) (st : WaitState) (fi : FileItem)
    (st' : WaitState) (h : pollStep fs st fi = Sum.inr st') : st'.now = st.now := by
  unfold pollStep at h
  cases hw : pollWritten fs st fi with
  | inl r => rw [hw] at h; exact Sum.noConfusion h
  | inr st2 =>
    rw [hw] at h
    rw [pollStatus_inr fs st2 fi st' h]
    exact pollWritten_inr_now fs st fi st2 hw

/-- The stall branch yields a path or the stalled failure. -/
theorem pollWritten_inl_cases (fs : FileSys) (st : WaitState) (fi : FileItem)
    (r : WaitResult) (h : pollWritten fs st fi = Sum.inl r) :
    (∃ p, r = WaitResult.gotPath p) ∨ r = WaitResult.stalledFail := by
  unfold pollWritten at h
  repeat' split at h
  all_goals
    first
      | exact Sum.noConfusion h
      | (injection h with h2; subst h2;
          first
            | exact Or.inl ⟨_, rfl⟩
            | exact Or.inr rfl)

/-- The status checks yield a path or the stopped failure. -/
theorem pollStatus_inl_cases (fs : FileSys) (st : WaitState) (fi : FileItem)
    (r : WaitResult) (h : pollStatus fs st fi = Sum.inl r) :
    (∃ p, r = WaitResult.gotPath p) ∨ r = WaitResult.stoppedFail := by
  unfold pollStatus at h
  repeat' split at h
  all_goals
    first
      | exact Sum.noConfusion h
      | (injection h with h2; subst h2;
          first
            | exact Or.inl ⟨_, rfl⟩
            | exact Or.inr rfl)

/-- A poll iteration can only return a path, the stalled failure or the
stopped failure — never the no-status or no-items failures, which belong
to the loop itself. -/
theorem pollStep_inl_cases (fs : FileSys) (st : WaitState) (fi : FileItem)
    (r : WaitResult) (h : pollStep fs st fi = Sum.inl r) :
    (∃ p, r = WaitResult.gotPath p) ∨ r = WaitResult.stalledFail ∨
      r = WaitResult.stoppedFail := by
  unfold pollStep at h
  cases hw : pollWritten fs st fi with
  | inl r2 =>
    rw [hw] at h
    injection h with h2
    subst h2
    rcases pollWritten_inl_cases fs st fi r2 hw with ⟨p, hp⟩ | hp
    · exact Or.inl ⟨p, hp⟩
    · exact Or.inr (Or.inl hp)
  | inr st2 =>
    rw [hw] at h
    rcases pollStatus_inl_cases fs st2 fi r h with ⟨p, hp⟩ | hp
    · exact Or.inl ⟨p, hp⟩
    · exact Or.inr (Or.inr hp)

/-- 31 progressing polls (62 time-units) followed by a single unanswered
poll. -/
def trC5 : List PollResponse :=
  (List.range 31).map (fun i =>
    PollResponse.resp
      [{ status := "running", download_path := some pStall,
         written_total := some (i + 1, 100) }]) ++ [PollResponse.noResp]

/-- C5, counterexample: the daemon answers 31 polls with healthy progress,
then misses a single poll — the loop immediately fails with the no-status
reason although the cumulative no-status time is only 2 time-units; the
threshold is measured against total elapsed time, and responsive time does
count. -/
theorem no_status_cumulative_cex :
    (wait_for_download [] trC5).fst = WaitResult.noStatusFail ∧
      noStatusTime trC5 ≤ 60 := by
  refine ⟨by decide, by decide⟩

/-- C5, amended: the loop fails with the no-status reason (and with the
analogous empty-items reason) only at a poll that got no response (resp.
an empty item list) with TOTAL elapsed time since the loop started — 2
units per poll, responsive or not — strictly above 60; conversely such a
poll at total elapsed time at most 60 just keeps the loop polling. -/
theorem no_status_total_elapsed (fs : FileSys) :
    (∀ (trace : List PollResponse) (st : WaitState),
      (wait_go fs st trace).fst = WaitResult.noStatusFail →
      ∃ k, k < trace.length ∧ trace.get? k = some PollResponse.noResp ∧
        st.now + 2 * k > 60) ∧
    (∀ (trace : List PollResponse) (st : WaitState),
      (wait_go fs st trace).fst = WaitResult.noItemsFail →
      ∃ k, k < trace.length ∧ trace.get? k = some (PollResponse.resp []) ∧
        st.now + 2 * k > 60) ∧
    (∀ (st : WaitState) (rest : List PollResponse), st.now ≤ 60 →
      (wait_go fs st (PollResponse.noResp :: rest)).fst =
        (wait_go fs { st with now := st.now + 2 } rest).fst) ∧
    (∀ (st : WaitState) (rest : List PollResponse), st.now ≤ 60 →
      (wait_go fs st (PollResponse.resp [] :: rest)).fst =
        (wait_go fs { st with now := st.now + 2 } rest).fst) := by
  have key : ∀ (trace : List PollResponse) (st : WaitState),
      ((wait_go fs st trace).fst = WaitResult.noStatusFail →
        ∃ k, k < trace.length ∧ trace.get? k = some PollResponse.noResp ∧
          st.now + 2 * k > 60) ∧
      ((wait_go fs st trace).fst = WaitResult.noItemsFail →
        ∃ k, k < trace.length ∧ trace.get? k = some (PollResponse.resp []) ∧
          st.now + 2 * k > 60) := by
    intro trace
    induction trace with
    | nil =>
      intro st
      constructor <;> (intro h; simp [wait_go] at h)
    | cons r rest ih =>
      intro st
      cases r with
      | noResp =>
        by_cases h60 : st.now > 60
        · constructor
          · intro _
            exact ⟨0, by simp, by simp, by omega⟩
          · intro h
            simp [wait_go, if_pos h60] at h
        · constructor
          · intro h
            simp only [wait_go, if_neg h60] at h
            obtain ⟨k, hk, hget, hgt⟩ := (ih _).1 h
            refine ⟨k + 1, by simpa using hk, by simpa using hget, ?_⟩
            have hgt' : st.now + 2 + 2 * k > 60 := hgt
            omega
          · intro h
            simp only [wait_go, if_neg h60] at h
            obtain ⟨k, hk, hget, hgt⟩ := (ih _).2 h
            refine ⟨k + 1, by simpa using hk, by simpa using hget, ?_⟩
            have hgt' : st.now + 2 + 2 * k > 60 := hgt
            omega
      | resp items =>
        cases items with
        | nil =>
          by_cases h60 : st.now > 60
          · constructor
            · intro h
              simp [wait_go, if_pos h60] at h
            · intro _
              exact ⟨0, by simp, by simp, by omega⟩
          · constructor
            · intro h
              simp only [wait_go, if_neg h60] at h
              obtain ⟨k, hk, hget, hgt⟩ := (ih _).1 h
              refine ⟨k + 1, by simpa using hk, by simpa using hget, ?_⟩
              have hgt' : st.now + 2 + 2 * k > 60 := hgt
              omega
            · intro h
              simp only [wait_go, if_neg h60] at h
              obtain ⟨k, hk, hget, hgt⟩ := (ih _).2 h
              refine ⟨k + 1, by simpa using hk, by simpa using hget, ?_⟩
              have hgt' : st.now + 2 + 2 * k > 60 := hgt
              omega
        | cons fi its =>
          constructor
          · intro h
            simp only [wait_go] at h
            cases hps : pollStep fs st fi with
            | inl r2 =>
              rw [hps] at h
              dsimp only at h
              rcases pollStep_inl_cases fs st fi r2 hps with ⟨p, hp⟩ | hp | hp <;>
                simp [hp] at h
            | inr st2 =>
              rw [hps] at h
              dsimp only at h
              obtain ⟨k, hk, hget, hgt⟩ := (ih _).1 h
              refine ⟨k + 1, by simpa using hk, by simpa using hget, ?_⟩
              have hnow : st2.now = st.now := pollStep_inr_now fs st fi st2 hps
              have hgt' : st2.now + 2 + 2 * k > 60 := hgt
              omega
          · intro h
            simp only [wait_go] at h
            cases hps : pollStep fs st fi with
            | inl r2 =>
              rw [hps] at h
              dsimp only at h
              rcases pollStep_inl_cases fs st fi r2 hps with ⟨p, hp⟩ | hp | hp <;>
                simp [hp] at h
            | inr st2 =>
              rw [hps] at h
              dsimp only at h
              obtain ⟨k, hk, hget, hgt⟩ := (ih _).2 h
              refine ⟨k + 1, by simpa using hk, by simpa using hget, ?_⟩
              have hnow : st2.now = st.now := pollStep_inr_now fs st fi st2 hps
              have hgt' : st2.now + 2 + 2 * k > 60 := hgt
              omega
  refine ⟨fun trace st => (key trace st).1, fun trace st => (key trace st).2, ?_, ?_⟩
  · intro st rest h60
    have h60' : ¬ st.now > 60 := by omega
    simp only [wait_go, if_neg h60']
  · intro st rest h60
    have h60' : ¬ st.now > 60 := by omega
    simp only [wait_go, if_neg h60']

/-- Witness for the amended C5: a missed poll at elapsed time 61 ends the
loop, and the threshold clause it satisfies is exhibited. -/
theorem no_status_total_elapsed_witness :
    ∃ k, k < ([PollResponse.noResp] : List PollResponse).length ∧
      ([PollResponse.noResp] : List PollResponse).get? k = some PollResponse.noResp ∧
      ({ now := 61, last_written_bytes := 0, stall_start_time := none } :
          WaitState).now + 2 * k > 60 :=
  (no_status_total_elapsed []).1 [PollResponse.noResp]
    { now := 61, last_written_bytes := 0, stall_start_time := none } (by decide)

/-! ## Claim C6 -/

/-- A successful size search returns a candidate from the list, within the
1 percent tolerance. -/
theorem findSizeMatch_mem (o : ℚ) (l : List (FsPath × Nat)) (q : FsPath)
    (h : findSizeMatch o l = some q) :
    ∃ sz, (q, sz) ∈ l ∧ |(sz : ℚ) - o| < o * (1 / 100) := by
  induction l with
  | nil => simp [findSizeMatch] at h
  | cons a rest ih =>
    obtain ⟨p, sz⟩ := a
    by_cases hc : |(sz : ℚ) - o| < o * (1 / 100)
    · simp only [findSizeMatch, if_pos hc, Option.some.injEq] at h
      subst h
      exact ⟨sz, List.mem_cons_self _ _, hc⟩
    · simp only [findSizeMatch, if_neg hc] at h
      obtain ⟨sz', hmem, hc'⟩ := ih h
      exact ⟨sz', List.mem_cons_of_mem _ hmem, hc'⟩

/-- The size search succeeds whenever some candidate is within
tolerance. -/
theorem findSizeMatch_isSome (o : ℚ) (l : List (FsPath × Nat)) (q : FsPath) (sz : Nat)
    (hmem : (q, sz) ∈ l) (hc : |(sz : ℚ) - o| < o * (1 / 100)) :
    (findSizeMatch o l).isSome = true := by
  induction l with
  | nil => simp at hmem
  | cons a rest ih =>
    obtain ⟨p2, sz2⟩ := a
    simp only [findSizeMatch]
    by_cases hc2 : |(sz2 : ℚ) - o| < o * (1 / 100)
    · rw [if_pos hc2]
      rfl
    · rw [if_neg hc2]
      rcases List.mem_cons.mp hmem with heq | hmem2
      · cases heq
        exact absurd hc hc2
      · exact ih hmem2

/-- Membership in the reconciler's candidate list characterized against
the filesystem. -/
theorem walkCandidates_mem (fs : FileSys) (output_dir : FsPath) (name : String)
    (q : FsPath) (sz : Nat) (h : (q, sz) ∈ walkCandidates fs output_dir name) :
    insideOutputDir output_dir q = true ∧ basename q = name ∧
      pathExists fs q = true := by
  unfold walkCandidates at h
  obtain ⟨⟨q2, m⟩, hmem, heq⟩ := List.mem_map.mp h
  rw [Prod.mk.injEq] at heq
  have hq : q2 = q := heq.1
  subst hq
  have hm := List.mem_filter.mp hmem
  have hpred := hm.2
  simp only [Bool.and_eq_true, beq_iff_eq] at hpred
  refine ⟨hpred.1, hpred.2, ?_⟩
  unfold pathExists fsLookup
  have hsome : (fs.find? (fun e => e.fst == q2)).isSome :=
    List.find?_isSome.mpr ⟨(q2, m), hm.1, by simp⟩
  obtain ⟨e, he⟩ := Option.isSome_iff_exists.mp hsome
  rw [he]
  rfl

/-- Filesystem for the C6 scenario: the recorded out-of-tree file still
exists, and an identically named, identically sized file sits inside the
tree. -/
def fsC6 : FileSys :=
  [(["out", "a.zip"], metaZip100), (["root", "sub", "a.zip"], metaZip100)]

/-- Index row locating `a.zip` outside the managed tree, with a parseable
recorded size of 100 bytes. -/
def entC6 : IndexRecord :=
  { fileName := "a.zip", location := some ["out", "a.zip"], lbryUrl := "",
    detailUrl := "", fileSizeMB := some ((100 : ℚ) / (1024 * 1024)), tags := "",
    category := "" }

/-- C6, counterexample: the record's location exists on disk but outside
the managed tree, and an in-tree file with the same bare filename and a
size within 1 percent is available — yet the reconciler leaves the record
untouched (outside-tree records are only counted, never searched): the
claim that such records are repaired is false. -/
theorem reconcile_outside_cex :
    reconcileEntry fsC6 ["root"] entC6 = entC6 ∧
      insideOutputDir ["root"] ["out", "a.zip"] = false ∧
      pathExists fsC6 ["out", "a.zip"] = true ∧
      (["root", "sub", "a.zip"], 100) ∈ walkCandidates fsC6 ["root"] "a.zip" ∧
      |((100 : Nat) : ℚ) - ((100 : ℚ) / (1024 * 1024)) * 1024 * 1024| <
        ((100 : ℚ) / (1024 * 1024)) * 1024 * 1024 * (1 / 100) := by
  refine ⟨rfl, by decide, by decide, by decide, by norm_num⟩

/-- C6, amended: rows whose recorded location still exists on disk —
inside or outside the tree — are left unchanged; only a row whose location
no longer exists is repaired, and then only from an in-tree file with the
same bare filename that passes the 1 percent size test (an unparseable
recorded size accepts the first filename match); when a passing candidate
exists the row's location is updated to an existing in-tree file with that
bare filename. -/
theorem reconcile_policy (fs : FileSys) (output_dir : FsPath) (entry : IndexRecord)
    (p : FsPath) (hloc : entry.location = some p) :
    (pathExists fs p = true → reconcileEntry fs output_dir entry = entry) ∧
    (pathExists fs p = false →
      (reconcileEntry fs output_dir entry = entry ∨
        ∃ q sz, reconcileEntry fs output_dir entry = { entry with location := some q } ∧
          (q, sz) ∈ walkCandidates fs output_dir (basename p) ∧
          (entry.fileSizeMB = none ∨
            ∃ mb, entry.fileSizeMB = some mb ∧
              |(sz : ℚ) - mb * 1024 * 1024| < mb * 1024 * 1024 * (1 / 100)))) ∧
    (pathExists fs p = false →
      ∀ mb q sz, entry.fileSizeMB = some mb →
        (q, sz) ∈ walkCandidates fs output_dir (basename p) →
        |(sz : ℚ) - mb * 1024 * 1024| < mb * 1024 * 1024 * (1 / 100) →
        ∃ q', (reconcileEntry fs output_dir entry).location = some q' ∧
          pathExists fs q' = true ∧ insideOutputDir output_dir q' = true ∧
          basename q' = basename p) := by
  refine ⟨?_, ?_, ?_⟩
  · intro hex
    unfold reconcileEntry
    rw [hloc]
    simp [hex]
  · intro hex
    have hstep : reconcileEntry fs output_dir entry =
        (match entry.fileSizeMB with
         | none =>
           match (walkCandidates fs output_dir (basename p)).head? with
           | some c => { entry with location := some c.fst }
           | none => entry
         | some mb =>
           match findSizeMatch (mb * 1024 * 1024)
               (walkCandidates fs output_dir (basename p)) with
           | some q => { entry with location := some q }
           | none => entry) := by
      unfold reconcileEntry
      rw [hloc]
      simp [hex]
    cases hmb : entry.fileSizeMB with
    | none =>
      have hstep2 : reconcileEntry fs output_dir entry =
          (match (walkCandidates fs output_dir (basename p)).head? with
           | some c => { entry with location := some c.fst }
           | none => entry) := by
        rw [hstep, hmb]
      cases hhead : (walkCandidates fs output_dir (basename p)).head? with
      | none =>
        rw [hhead] at hstep2
        exact Or.inl hstep2
      | some c =>
        rw [hhead] at hstep2
        rw [hmb] at hstep2
        refine Or.inr ⟨c.fst, c.snd, hstep2, ?_, Or.inl rfl⟩
        have hcm : c ∈ walkCandidates fs output_dir (basename p) :=
          List.mem_of_mem_head? (by rw [hhead]; exact Option.mem_some_iff.mpr rfl)
        simpa using hcm
    | some mb =>
      have hstep2 : reconcileEntry fs output_dir entry =
          (match findSizeMatch (mb * 1024 * 1024)
              (walkCandidates fs output_dir (basename p)) with
           | some q => { entry with location := some q }
           | none => entry) := by
        rw [hstep, hmb]
      cases hfind : findSizeMatch (mb * 1024 * 1024)
          (walkCandidates fs output_dir (basename p)) with
      | none =>
        rw [hfind] at hstep2
        exact Or.inl hstep2
      | some q =>
        rw [hfind] at hstep2
        rw [hmb] at hstep2
        obtain ⟨sz, hmem, hc⟩ := findSizeMatch_mem _ _ _ hfind
        exact Or.inr ⟨q, sz, hstep2, hmem, Or.inr ⟨mb, rfl, hc⟩⟩
  · intro hex mb q sz hmb hmem hc
    have hstep : reconcileEntry fs output_dir entry =
        (match entry.fileSizeMB with
         | none =>
           match (walkCandidates fs output_dir (basename p)).head? with
           | some c => { entry with location := some c.fst }
           | none => entry
         | some mb2 =>
           match findSizeMatch (mb2 * 1024 * 1024)
               (walkCandidates fs output_dir (basename p)) with
           | some q2 => { entry with location := some q2 }
           | none => entry) := by
      unfold reconcileEntry
      rw [hloc]
      simp [hex]
    have hstep2 : reconcileEntry fs output_dir entry =
        (match findSizeMatch (mb * 1024 * 1024)
            (walkCandidates fs output_dir (basename p)) with
         | some q2 => { entry with location := some q2 }
         | none => entry) := by
      rw [hstep, hmb]
    have hsome := findSizeMatch_isSome (mb * 1024 * 1024) _ q sz hmem hc
    obtain ⟨q', hq'⟩ := Option.isSome_iff_exists.mp hsome
    rw [hq'] at hstep2
    obtain ⟨sz', hmem', _⟩ := findSizeMatch_mem _ _ _ hq'
    obtain ⟨hin, hbase, hpe⟩ := walkCandidates_mem fs output_dir (basename p) q' sz' hmem'
    refine ⟨q', ?_, hpe, hin, hbase⟩
    rw [hstep2]

/-- Filesystem for the C6 witness: the recorded location is gone; the
moved file sits inside the tree. -/
def fsC6w : FileSys := [(["root", "sub", "a.zip"], metaZip100)]

/-- Index row whose recorded location no longer exists. -/
def entGone : IndexRecord :=
  { entC6 with location := some ["root", "gone", "a.zip"] }

/-- Witness for the amended C6: the missing-location row is repaired to an
existing in-tree file with the same bare filename. -/
theorem reconcile_policy_witness :
    ∃ q', (reconcileEntry fsC6w ["root"] entGone).location = some q' ∧
      pathExists fsC6w q' = true ∧ insideOutputDir ["root"] q' = true ∧
      basename q' = basename ["root", "gone", "a.zip"] :=
  (reconcile_policy fsC6w ["root"] entGone ["root", "gone", "a.zip"] rfl).2.2
    (by decide) ((100 : ℚ) / (1024 * 1024)) ["root", "sub", "a.zip"] 100 rfl
    (by decide) (by norm_num)

/-! ## Claim C1 -/

/-- A minimal configuration: managed root `root`, no tag filter, a
constant classification. -/
def cfg0 : Config :=
  { output_dir := ["root"], excluded_tags := [],
    classify := fun _ _ _ =>
      { category := "Misc", gun_model := none, caliber := none, part_type := none } }

/-- A catalog entry whose download the daemon never serves. -/
def e0 : CatalogEntry :=
  { title := "T", detail_url := "D", lbry_url := "lbry://foo", tags := [],
    description := "", size := 0 }

/-- The pristine world: empty tracker, empty index, empty filesystem, a
live daemon that answers no `get` call. -/
def S0 : SysState :=
  { tracker := { history := [], historyDisk := [], filesystem_cache := none },
    master_index := [], fs := [], lbry_available := true,
    gets := [none, none, none, none, none, none], polls := [],
    daemonCalls := 0, session_successful := 0, session_failed := 0,
    session_skipped_by_filter := 0, indeterminate := false }

/-- C1, counterexample: on a catalog whose single item fails to download,
the first run makes 3 daemon calls and records a failure; with
`checkNewOnly` enabled the second run does NOT perform zero daemon calls —
failed items are never treated as acquired, so the item is retried with 3
more daemon calls.  Unconditional two-run idempotence is false. -/
theorem run_twice_daemon_calls_cex :
    (run cfg0 mdId (run cfg0 mdId S0 [e0] true) [e0] true).daemonCalls = 6 ∧
      (run cfg0 mdId S0 [e0] true).daemonCalls = 3 := by
  refine ⟨rfl, rfl⟩

/-- C1, amended: two-run idempotence holds for catalogs whose every entry
the first run leaves recognized as already acquired (in particular no
entry failed): the second run then filters every entry out, performs zero
daemon calls, and leaves the whole world — ledger, managed files, and all
counters — exactly as the first run left it. -/
theorem run_idempotent_when_all_acquired (cfg : Config) (md5 : String → String)
    (S0' : SysState) (catalog : List CatalogEntry)
    (havail : (run cfg md5 S0' catalog true).lbry_available = true)
    (hall : ∀ e ∈ catalog,
      is_downloaded md5 (run cfg md5 S0' catalog true).fs cfg.output_dir
        (run cfg md5 S0' catalog true).master_index
        (run cfg md5 S0' catalog true).tracker.history
        e.detail_url e.lbry_url e.size = true) :
    run cfg md5 (run cfg md5 S0' catalog true) catalog true =
      run cfg md5 S0' catalog true := by
  set S1 := run cfg md5 S0' catalog true with hS1
  have hb : (!S1.lbry_available) = false := by rw [havail]; rfl
  have hfil : (catalog.filter fun e =>
      !(is_downloaded md5 S1.fs cfg.output_dir S1.master_index S1.tracker.history
          e.detail_url e.lbry_url e.size)) = [] := by
    rw [List.filter_eq_nil_iff]
    intro e he
    simp [hall e he]
  unfold run
  rw [hb]
  simp only [Bool.false_eq_true, if_false, if_pos rfl]
  rw [hfil]
  simp

/-- A success-shaped ledger entry locating the file at the in-tree sample
path. -/
def entrySuccess : HistEntry :=
  { entryFailed with status := none, filepath := some pIn }

/-- A catalog entry already acquired in the witness world. -/
def eW : CatalogEntry :=
  { title := "T", detail_url := "D1", lbry_url := "lbry://a", tags := [],
    description := "", size := 100 }

/-- A world where the single catalog item is already on disk and in the
ledger. -/
def trackerW : TrackerState :=
  { history := [("D1", entrySuccess)],
    historyDisk := [("D1", entrySuccess)],
    filesystem_cache := none }

def S0W : SysState :=
  { tracker := trackerW,
    master_index := [], fs := fsIn, lbry_available := true, gets := [], polls := [],
    daemonCalls := 0, session_successful := 0, session_failed := 0,
    session_skipped_by_filter := 0, indeterminate := false }

/-- Witness for the amended C1: with the item already acquired, the second
run is the identity on the whole world. -/
theorem run_idempotent_when_all_acquired_witness :
    run cfg0 mdId (run cfg0 mdId S0W [eW] true) [eW] true =
      run cfg0 mdId S0W [eW] true :=
  run_idempotent_when_all_acquired cfg0 mdId S0W [eW] (by decide) (by decide)

end Guncad
